import Mathlib

/-!
# micromdm: blueprint store and DEP sync watcher

A shallow embedding of `blueprint/db.go` and `depsync/depsync.go`.

* Go `string` values are Lean `String`s; a `[]byte` holding a protobuf
  encoding is a `Bytes`.
* A Go `error` is a `GoError`; a `nil` error is `none`.
* A bolt bucket is a key-ordered association list, so that a cursor walk
  (`First`/`Next`) is a walk down the list.
* Functions of the repository that the two files call but that live in
  other files (`Verify`, `MarshalBlueprint`, `UnmarshalBlueprint`,
  `profile.DB.ProfileById`, `profile.IsNotFound`, `MarshalEvent`) are
  parameters and stay arbitrary in the theorems.
* Calls to `fmt.Printf` and `log` are left out.
-/

/-- Go error values. `notFound` is the `*notFound` type of package
blueprint, `new` is an error made by `errors.New` or `fmt.Errorf` (or handed
over by a library), `wrap` is `errors.Wrap`. -/
inductive GoError where
  | notFound (ResourceType Message : String)
  | new (msg : String)
  | wrap (cause : GoError) (msg : String)
  deriving DecidableEq, Repr

/-- The `Error()` method: the text of an error. -/
def GoError.Error : GoError → String
  | .notFound rt m => "not found: " ++ rt ++ " " ++ m
  | .new msg => msg
  | .wrap cause msg => msg ++ ": " ++ cause.Error

/-- A byte slice. A nil slice and an empty slice are both `[]`. -/
abbrev Bytes := List UInt8

namespace strings

/-- Whether the second list starts the first. -/
def beginsWith : List Char → List Char → Bool
  | _, [] => true
  | [], _ :: _ => false
  | c :: s, d :: p => c = d && beginsWith s p

/-- Whether the second list occurs in the first as a contiguous run. -/
def containsChars : List Char → List Char → Bool
  | [], sub => beginsWith [] sub
  | c :: s, sub => beginsWith (c :: s) sub || containsChars s sub

/-- `strings.Contains`. -/
def Contains (s substr : String) : Bool := containsChars s.data substr.data

end strings

namespace bolt

/-- Size in bytes of a bucket key or value. -/
class ByteLen (β : Type) where
  len : β → Nat

instance : ByteLen String := ⟨String.utf8ByteSize⟩

instance : ByteLen Bytes := ⟨List.length⟩

/-- `bolt.MaxKeySize`. -/
def MaxKeySize : Nat := 32768

/-- `bolt.MaxValueSize`. -/
def MaxValueSize : Nat := 2 ^ 31 - 2

/-- `bolt.ErrKeyRequired`. -/
def ErrKeyRequired : GoError := .new "key required"

/-- `bolt.ErrKeyTooLarge`. -/
def ErrKeyTooLarge : GoError := .new "key too large"

/-- `bolt.ErrValueTooLarge`. -/
def ErrValueTooLarge : GoError := .new "value too large"

/-- A bucket: its entries in cursor order (ascending keys). -/
abbrev Bucket (β : Type) := List (String × β)

/-- `Bucket.Get`: the value under `key`, `none` standing for `nil`. -/
def Bucket.Get {β : Type} : Bucket β → String → Option β
  | [], _ => none
  | (k, v) :: rest, key => if k = key then some v else Bucket.Get rest key

/-- Placing an entry at its position in key order, replacing an entry with
the same key. Keys are compared character by character, which on UTF-8 text
is the byte order bolt sorts by. -/
def Bucket.insert {β : Type} (key : String) (value : β) : Bucket β → Bucket β
  | [] => [(key, value)]
  | (k, v) :: rest =>
    if key.data < k.data then (key, value) :: (k, v) :: rest
    else if key = k then (key, value) :: rest
    else (k, v) :: Bucket.insert key value rest

/-- `Bucket.Put` inside a writable transaction. -/
def Bucket.Put {β : Type} [ByteLen β] (b : Bucket β) (key : String) (value : β) :
    Except GoError (Bucket β) :=
  if key.utf8ByteSize = 0 then .error ErrKeyRequired
  else if key.utf8ByteSize > MaxKeySize then .error ErrKeyTooLarge
  else if ByteLen.len value > MaxValueSize then .error ErrValueTooLarge
  else .ok (Bucket.insert key value b)

/-- Keys strictly ascending: the order a bolt cursor walks in. -/
def Bucket.Ordered {β : Type} (b : Bucket β) : Prop :=
  List.Pairwise (fun x y => x.1.data < y.1.data) b

end bolt

namespace blueprint

open bolt

/-- Modelled from the spec: the declaration of the `Blueprint` type is not
among the sources; these are the fields the data model lists and `db.go`
reads. -/
structure Blueprint where
  UUID : String
  Name : String
  ProfileIdentifiers : List String
  ApplyAt : List String
  deriving DecidableEq, Repr

/-- The functions `db.go` calls that are defined elsewhere. `ProfileById`
gives the error result of `profile.DB.ProfileById` in the current profile
store (`none` when the profile is found), `IsNotFound` is
`profile.IsNotFound`, and `ToLower` is `strings.ToLower`. -/
structure Env where
  Verify : Blueprint → Option GoError
  ProfileById : String → Option GoError
  IsNotFound : GoError → Bool
  MarshalBlueprint : Blueprint → Except GoError Bytes
  UnmarshalBlueprint : Bytes → Except GoError Blueprint
  ToLower : String → String

/-- Modelled from the spec: the wire encoding is not among the sources; it is
a bijective mapping between a record and its encoding, so decoding an encoded
blueprint gives it back. -/
def Env.RoundTrip (env : Env) : Prop :=
  ∀ bp b, env.MarshalBlueprint bp = .ok b → env.UnmarshalBlueprint b = .ok bp

/-- Modelled from the spec: `Blueprint.Verify` is not among the sources; the
validation rejects an entity whose name is missing. -/
def Env.VerifyNeedsName (env : Env) : Prop :=
  ∀ bp, env.Verify bp = none → bp.Name ≠ ""

/-- The committed content of the two buckets `NewDB` creates:
`mdm.Blueprint` (primary) and `mdm.BlueprintIdx` (index). -/
structure DB where
  primary : Bucket Bytes
  index : Bucket String
  deriving DecidableEq, Repr

/-- The store right after `NewDB`. -/
def DB.empty : DB := ⟨[], []⟩

/-- `isNotFound`: a type assertion to `*notFound`. -/
def isNotFound : GoError → Bool
  | .notFound _ _ => true
  | _ => false

/-- `DB.BlueprintByName`, the error of `db.View` being the error of its
callback. Both tests look at `idx`, as in the source; a nil `v` reaches
`UnmarshalBlueprint` as the empty slice. -/
def DB.BlueprintByName (db : DB) (env : Env) (name : String) : Except GoError Blueprint :=
  let idx := db.index.Get name
  if idx = none then .error (.notFound "Blueprint" ("name " ++ name))
  else
    let v := db.primary.Get (idx.getD "")
    if idx = none then .error (.notFound "Blueprint" ("uuid " ++ idx.getD ""))
    else env.UnmarshalBlueprint (v.getD [])

/-- What a write operation hands back: the committed store afterwards, the
returned error, and whether `db.DB.Begin(true)` was called. -/
structure SaveResult where
  db : DB
  err : Option GoError
  txBegun : Bool
  deriving DecidableEq, Repr

/-- The loop of `Save` over `bp.ProfileIdentifiers`. -/
def checkProfiles (env : Env) (name : String) : List String → Option GoError
  | [] => none
  | p :: rest =>
    match env.ProfileById p with
    | some err =>
      if env.IsNotFound err then
        some (.new ("Profile ID " ++ p ++ " in Blueprint " ++ name ++ " does not exist"))
      else some (.wrap err "fetching profile")
    | none => checkProfiles env name rest

/-- The loop of `Save` over `indexes`. -/
def putIndexes (uuid : String) : List String → Bucket String → Except GoError (Bucket String)
  | [], ib => .ok ib
  | idx :: rest, ib =>
    if idx = "" then putIndexes uuid rest ib
    else
      match ib.Put idx uuid with
      | .error err => .error (.wrap err "put blueprint idx to boltdb")
      | .ok ib1 => putIndexes uuid rest ib1

/-- `DB.Save`. `Begin` and `Commit` are taken to succeed and both buckets to
exist, as `NewDB` leaves them. A return after `Begin` that is not
`tx.Commit()` leaves the transaction uncommitted: the committed buckets stay
as they were. -/
def DB.Save (db : DB) (env : Env) (bp : Blueprint) : SaveResult :=
  match env.Verify bp with
  | some err => ⟨db, some err, false⟩
  | none =>
    match checkProfiles env bp.Name bp.ProfileIdentifiers with
    | some err => ⟨db, some err, false⟩
    | none =>
      match env.MarshalBlueprint bp with
      | .error err => ⟨db, some (.wrap err "marshalling blueprint"), true⟩
      | .ok bpproto =>
        match putIndexes bp.UUID [bp.UUID, bp.Name] db.index with
        | .error err => ⟨db, some err, true⟩
        | .ok idxBucket =>
          match db.primary.Put bp.UUID bpproto with
          | .error err => ⟨db, some (.wrap err "put blueprint to boltdb"), true⟩
          | .ok bkt => ⟨⟨bkt, idxBucket⟩, none, true⟩

/-- `DB.Create`. -/
def DB.Create (db : DB) (env : Env) (bp : Blueprint) : SaveResult :=
  match db.BlueprintByName env bp.Name with
  | .error err =>
    if isNotFound err then ⟨db, some (.new "blueprint must have a unique name"), false⟩
    else ⟨db, some (.wrap err "creating blueprint"), false⟩
  | .ok _ => db.Save env bp

/-- The cursor loop of `List`, with the slice built so far. -/
def listLoop (env : Env) : Bucket Bytes → List Blueprint → List Blueprint × Option GoError
  | [], blueprints => (blueprints, none)
  | (_, v) :: rest, blueprints =>
    match env.UnmarshalBlueprint v with
    | .error err => (blueprints, some err)
    | .ok bp => listLoop env rest (blueprints ++ [bp])

/-- The Go type `[]Blueprint`. -/
abbrev Blueprints := List Blueprint

/-- `DB.List`. -/
def DB.List (db : DB) (env : Env) : Blueprints × Option GoError :=
  listLoop env db.primary []

/-- The inner loop of `BlueprintsByApplyAt` for one decoded record: the first
label that matches appends the record and breaks. -/
def applyAtLoop (env : Env) (name : String) (bp : Blueprint) :
    List String → List Blueprint → List Blueprint
  | [], bps => bps
  | n :: rest, bps =>
    if env.ToLower n = env.ToLower name then bps ++ [bp]
    else applyAtLoop env name bp rest bps

/-- The cursor loop of `BlueprintsByApplyAt`, with the slice built so far; a
record that fails to decode is passed over. -/
def byApplyAtLoop (env : Env) (name : String) : Bucket Bytes → List Blueprint → List Blueprint
  | [], bps => bps
  | (_, v) :: rest, bps =>
    match env.UnmarshalBlueprint v with
    | .error _ => byApplyAtLoop env name rest bps
    | .ok bp => byApplyAtLoop env name rest (applyAtLoop env name bp bp.ApplyAt bps)

/-- `DB.BlueprintsByApplyAt`: the slice and the error of `db.View`, whose
callback returns nil. -/
def DB.BlueprintsByApplyAt (db : DB) (env : Env) (name : String) :
    Blueprints × Option GoError :=
  (byApplyAtLoop env name db.primary [], none)

/-- The stores a run of successful `Save` calls leads to from the empty
store, with the blueprints saved so far, newest first. Every call may meet
another profile store and another `Verify`; the encoder stays the same. -/
inductive Reachable (marshal : Blueprint → Except GoError Bytes) : List Blueprint → DB → Prop
  | empty : Reachable marshal [] DB.empty
  | save {hist : List Blueprint} {db : DB} (env : Env) (bp : Blueprint) :
      env.MarshalBlueprint = marshal → Reachable marshal hist db →
      (db.Save env bp).err = none → Reachable marshal (bp :: hist) (db.Save env bp).db

/-- What a decoder makes of a stored record: the blueprint, or nothing when
the record fails to decode. -/
def decoded (env : Env) (v : Bytes) : Option Blueprint :=
  match env.UnmarshalBlueprint v with
  | .ok bp => some bp
  | .error _ => none

/-- The trigger scan in the words of the spec: of the stored records, in
cursor order, those that decode and carry a label equal to `label` once both
are lower-cased. -/
def listByTrigger (env : Env) (db : DB) (label : String) : List Blueprint :=
  (db.primary.filterMap (fun kv => decoded env kv.2)).filter
    (fun bp => bp.ApplyAt.any (fun n => decide (env.ToLower n = env.ToLower label)))

/-! ### A concrete environment for evaluating the code -/

/-- A blueprint named base. -/
def bpBase : Blueprint := ⟨"u1", "base", [], ["Enroll"]⟩

/-- Another blueprint named base, under another uuid. -/
def bpBase2 : Blueprint := ⟨"u2", "base", [], []⟩

/-- The first blueprint, renamed. -/
def bpRenamed : Blueprint := ⟨"u1", "main", [], ["Enroll"]⟩

/-- A blueprint with one profile reference. -/
def bpProd : Blueprint := ⟨"u3", "prod", ["p1"], []⟩

/-- A blueprint with two profile references. -/
def bpProd2 : Blueprint := ⟨"u3", "prod", ["p1", "p2"], []⟩

/-- An encoder defined on the blueprints above; the blueprint with all fields
empty is encoded by the empty message, as protobuf does. -/
def demoMarshal (bp : Blueprint) : Except GoError Bytes :=
  if bp = ⟨"", "", [], []⟩ then .ok []
  else if bp = bpBase then .ok [1]
  else if bp = bpBase2 then .ok [2]
  else if bp = bpRenamed then .ok [3]
  else if bp = bpProd then .ok [4]
  else if bp = bpProd2 then .ok [5]
  else .error (.new "proto: cannot encode")

/-- The decoder that goes with `demoMarshal`. -/
def demoUnmarshal : Bytes → Except GoError Blueprint
  | [] => .ok ⟨"", "", [], []⟩
  | [1] => .ok bpBase
  | [2] => .ok bpBase2
  | [3] => .ok bpRenamed
  | [4] => .ok bpProd
  | [5] => .ok bpProd2
  | _ => .error (.wrap (.new "proto: bad wire data") "unmarshal proto to blueprint")

/-- A `Verify` that asks for a name and a uuid. -/
def demoVerify (bp : Blueprint) : Option GoError :=
  if bp.Name = "" ∨ bp.UUID = "" then some (.new "Blueprint must have Name and UUID") else none

/-- A `profile.IsNotFound` for evaluation: the not-found errors of the
profile store are those whose text starts with "not found: Profile". -/
def demoIsNotFound : GoError → Bool
  | .new msg => strings.beginsWith msg.data "not found: Profile".data
  | _ => false

/-- An environment over a given profile store. Its `ToLower` lower-cases the
letters A to Z only and agrees with `strings.ToLower` on ASCII labels; no
theorem about the code depends on it. -/
def demoEnv (profileById : String → Option GoError) : Env where
  Verify := demoVerify
  ProfileById := profileById
  IsNotFound := demoIsNotFound
  MarshalBlueprint := demoMarshal
  UnmarshalBlueprint := demoUnmarshal
  ToLower := String.toLower

/-- A profile store without profiles. -/
def noProfiles (id : String) : Option GoError := some (.new ("not found: Profile id " ++ id))

/-- A profile store in which the record of p1 is unreadable and every other
profile is missing. -/
def brokenProfiles (id : String) : Option GoError :=
  if id = "p1" then some (.new "unmarshal proto to profile") else noProfiles id

/-- A profile store that holds p0, in which the record of p1 is unreadable
and every other profile is missing. -/
def mixedProfiles (id : String) : Option GoError :=
  if id = "p0" then none else brokenProfiles id

/-- A blueprint whose second reference is to a missing profile, the first
being to a stored one. -/
def bpAbsentSecond : Blueprint := ⟨"u4", "prod", ["p0", "p2", "p1"], []⟩

/-- A blueprint whose second reference is to an unreadable profile and whose
third is to a missing one, the first being to a stored one. -/
def bpBrokenSecond : Blueprint := ⟨"u4", "prod", ["p0", "p1", "p2"], []⟩

/-- A store whose index names a uuid that the primary bucket does not hold. -/
def danglingDB : DB := ⟨[], [("a", "u1")]⟩

end blueprint

namespace depsync

/-- The constant `SyncTopic`. -/
def SyncTopic : String := "mdm.DepSync"

/-- `time.Hour`, in nanoseconds; a `time.Time` is an `Int`, the nanoseconds
since the epoch. -/
def Hour : Int := 3600 * 10 ^ 9

/-- The type `cursor`. -/
structure cursor where
  Value : String
  CreatedAt : Int
  deriving DecidableEq, Repr

/-- `cursor.Valid`, with the reading of `time.Now()` as an argument. -/
def cursor.Valid (c : cursor) (now : Int) : Bool :=
  let expiration := now + 24 * 7 * Hour
  if c.CreatedAt > expiration then false else true

/-- Modelled from the spec: the declaration of `config` is not among the
sources; it holds the cursor that `Save` writes to the bucket
`mdm.DEPConfig`. -/
structure config where
  Cursor : cursor
  deriving DecidableEq, Repr

/-- `New` up to the start of the goroutine: the configuration `Run` starts
from, given what `LoadConfig` returned and the reading of `time.Now()`. -/
def New (loaded : Except GoError config) (now : Int) : Except GoError config :=
  match loaded with
  | .error err => .error err
  | .ok conf =>
    if conf.Cursor.Valid now then .ok conf
    else .ok { conf with Cursor := { conf.Cursor with Value := "" } }

/-- `isCursorExhausted`. -/
def isCursorExhausted (err : GoError) : Bool := strings.Contains err.Error "EXHAUSTED_CURSOR"

/-- `isCursorExpired`. -/
def isCursorExpired (err : GoError) : Bool := strings.Contains err.Error "EXPIRED_CURSOR"

/-- A `dep.Device`, reduced to its serial number. -/
structure Device where
  SerialNumber : String
  deriving DecidableEq, Repr

/-- The fields of `dep.DeviceResponse` that steer `Run`. -/
structure DeviceResponse where
  Devices : List Device
  Cursor : String
  MoreToFollow : Bool
  deriving DecidableEq, Repr

/-- Modelled from the spec: the declaration of `Event` is not among the
sources; an event holds the device batch of one page, next to the id and
the time `NewEvent` draws. -/
structure Event where
  ID : String
  Time : Int
  Devices : List Device
  deriving DecidableEq, Repr

/-- Modelled from the spec: `NewEvent` is not among the sources; it wraps the
device batch, the id and the time being drawn by the caller here. -/
def NewEvent (id : String) (now : Int) (devices : List Device) : Event :=
  ⟨id, now, devices⟩

/-- What the surroundings answer during one turn of a loop of `Run`: the API
call, the clock, `conf.Save`, the id and time `NewEvent` draws, and
`publisher.Publish`. A turn reads only the answers of the calls it makes. -/
structure Answers where
  api : Except GoError DeviceResponse
  now : Int
  save : Option GoError
  eventID : String
  eventTime : Int
  publish : Option GoError

/-- What `Run` does to its surroundings, in program order. -/
inductive Action where
  | FetchDevices (limit : Nat) (cursor : String) (res : Except GoError DeviceResponse)
  | SyncDevices (arg : String) (cursor : String) (res : Except GoError DeviceResponse)
  | Save (c : cursor) (err : Option GoError)
  | Publish (topic : String) (data : Bytes) (err : Option GoError)
  | Tick

/-- Whether an action is a call of the enrollment API. -/
def Action.isAPICall : Action → Bool
  | .FetchDevices _ _ _ => true
  | .SyncDevices _ _ _ => true
  | _ => false

/-- The state `Run` works on: `w.conf` in memory and the cursor last
written to the bucket `mdm.DEPConfig`. -/
structure State where
  conf : config
  saved : Option cursor
  deriving DecidableEq, Repr

/-- Modelled from the spec: `config.Save` is not among the sources; it
overwrites the single stored record with the cursor in memory, or fails and
leaves the record as it was. -/
def State.Save (st : State) (answer : Option GoError) : State :=
  match answer with
  | some _ => st
  | none => { st with saved := some st.conf.Cursor }

/-- The two labels of `Run`. -/
inductive Phase where
  | FETCH
  | SYNC
  deriving DecidableEq, Repr

/-- How a turn of a loop ends: a jump to a label, or `Run` returning. -/
inductive Next where
  | goto (ph : Phase)
  | ret (err : GoError)
  deriving DecidableEq, Repr

/-- The actions of a stretch of `Run`, the state after it and how it ends. -/
structure Outcome where
  trace : List Action
  st : State
  next : Next

/-- One turn of the loop under the label `FETCH`. -/
def turnFETCH (MarshalEvent : Event → Except GoError Bytes) (st : State) (a : Answers) :
    Outcome :=
  let call := Action.FetchDevices 100 st.conf.Cursor.Value a.api
  match a.api with
  | .error err =>
    if isCursorExhausted err then ⟨[call], st, .goto .SYNC⟩
    else ⟨[call], st, .ret err⟩
  | .ok resp =>
    let st1 : State := { st with conf := { st.conf with Cursor := ⟨resp.Cursor, a.now⟩ } }
    let save := Action.Save st1.conf.Cursor a.save
    match a.save with
    | some err => ⟨[call, save], st1.Save a.save, .ret (.wrap err "saving cursor from fetch")⟩
    | none =>
      let st2 := st1.Save a.save
      let e := NewEvent a.eventID a.eventTime resp.Devices
      match MarshalEvent e with
      | .error err => ⟨[call, save], st2, .ret err⟩
      | .ok data =>
        let pub := Action.Publish SyncTopic data a.publish
        match a.publish with
        | some err => ⟨[call, save, pub], st2, .ret err⟩
        | none =>
          if !resp.MoreToFollow then ⟨[call, save, pub], st2, .goto .SYNC⟩
          else ⟨[call, save, pub], st2, .goto .FETCH⟩

/-- One turn of the loop under the label `SYNC`. -/
def turnSYNC (st : State) (a : Answers) : Outcome :=
  let call := Action.SyncDevices st.conf.Cursor.Value st.conf.Cursor.Value a.api
  match a.api with
  | .error err =>
    if isCursorExpired err then
      ⟨[call], { st with conf := { st.conf with Cursor := { st.conf.Cursor with Value := "" } } },
        .goto .FETCH⟩
    else ⟨[call], st, .ret err⟩
  | .ok resp =>
    let st1 : State := { st with conf := { st.conf with Cursor := ⟨resp.Cursor, a.now⟩ } }
    let save := Action.Save st1.conf.Cursor a.save
    match a.save with
    | some err => ⟨[call, save], st1.Save a.save, .ret (.wrap err "saving cursor from sync")⟩
    | none => ⟨[call, save, .Tick], st1.Save a.save, .goto .SYNC⟩

/-- One turn of the loop the label names. -/
def turn (MarshalEvent : Event → Except GoError Bytes) : Phase → State → Answers → Outcome
  | .FETCH, st, a => turnFETCH MarshalEvent st a
  | .SYNC, st, a => turnSYNC st a

/-- `watcher.Run` from a label on, against the answers of the surroundings
turn by turn. `Run` itself starts at `FETCH`. When the answers run out the
loop is still going: `next` is the label it stands at. -/
def Run (MarshalEvent : Event → Except GoError Bytes) : Phase → State → List Answers → Outcome
  | ph, st, [] => ⟨[], st, .goto ph⟩
  | ph, st, a :: rest =>
    match turn MarshalEvent ph st a with
    | ⟨tr, st1, .ret err⟩ => ⟨tr, st1, .ret err⟩
    | ⟨tr, st1, .goto ph1⟩ =>
      let r := Run MarshalEvent ph1 st1 rest
      ⟨tr ++ r.trace, r.st, r.next⟩

end depsync

namespace blueprint

/-- The store after saving `bpBase` into the empty store. -/
def baseDB : DB := (DB.empty.Save (demoEnv noProfiles) bpBase).db

/-- The store after saving `bpBase` and then, under the same uuid, the
renamed blueprint. -/
def renamedDB : DB := (baseDB.Save (demoEnv noProfiles) bpRenamed).db

end blueprint

namespace depsync

/-- A configuration loaded at start-up whose cursor was stamped at time 0. -/
def staleConf : config := ⟨⟨"C0", 0⟩⟩

/-- A clock reading eight days after time 0. -/
def eightDays : Int := 8 * 24 * Hour

/-- The API call a turn of the loop under a label starts with. -/
def firstCall (ph : Phase) (st : State) (a : Answers) : Action :=
  match ph with
  | .FETCH => .FetchDevices 100 st.conf.Cursor.Value a.api
  | .SYNC => .SyncDevices st.conf.Cursor.Value st.conf.Cursor.Value a.api

/-- An encoder of events for evaluation: one byte per device. -/
def demoMarshalEvent (e : Event) : Except GoError Bytes := .ok (e.Devices.map (fun _ => 1))

/-- A turn in which the API reports an expired cursor. -/
def expiredAnswer : Answers := ⟨.error (.new "dep: EXPIRED_CURSOR"), 20, none, "e0", 20, none⟩

/-- A turn in which the API reports an exhausted cursor. -/
def exhaustedAnswer : Answers := ⟨.error (.new "dep: EXHAUSTED_CURSOR"), 20, none, "e0", 20, none⟩

/-- A turn in which the API returns a last page of three devices with the
cursor C1, and the save and the publish succeed. -/
def pageAnswer : Answers :=
  ⟨.ok ⟨[⟨"S1"⟩, ⟨"S2"⟩, ⟨"S3"⟩], "C1", false⟩, 10, none, "e1", 10, none⟩

/-- The state of a first run: an empty cursor, nothing stored. -/
def freshState : State := ⟨⟨⟨"", 0⟩⟩, none⟩

/-- A state in which the cursor C1 is in memory and stored. -/
def syncedState : State := ⟨⟨⟨"C1", 10⟩⟩, some ⟨"C1", 10⟩⟩

end depsync

/-! ## Theorems -/

namespace bolt

theorem Bucket.get_insert {β : Type} (b : Bucket β) (key : String) (value : β) (k : String) :
    (Bucket.insert key value b).Get k = if key = k then some value else b.Get k := by
  induction b with
  | nil => simp [Bucket.insert, Bucket.Get]
  | cons hd rest ih =>
    obtain ⟨k0, v0⟩ := hd
    unfold Bucket.insert
    by_cases h1 : key.data < k0.data
    · simp [h1, Bucket.Get]
    · by_cases h2 : key = k0
      · subst h2
        by_cases h3 : key = k <;> simp [h1, h3, Bucket.Get]
      · by_cases h3 : key = k
        · subst h3
          simp [h1, h2, Bucket.Get, ih, Ne.symm h2]
        · by_cases h4 : k0 = k
          · subst h4
            simp [h1, h2, Bucket.Get]
          · simp [h1, h2, h3, h4, Bucket.Get, ih]

theorem Bucket.put_ok {β : Type} [ByteLen β] {b b1 : Bucket β} {key : String} {value : β}
    (h : b.Put key value = .ok b1) : key ≠ "" ∧ b1 = Bucket.insert key value b := by
  unfold Bucket.Put at h
  split_ifs at h with h1 h2 h3
  refine ⟨?_, ?_⟩
  · rintro rfl
    exact h1 rfl
  · cases h; rfl

theorem Bucket.mem_insert {β : Type} (b : Bucket β) (key : String) (value : β)
    (x : String × β) (hx : x ∈ Bucket.insert key value b) : x.1 = key ∨ x ∈ b := by
  induction b with
  | nil =>
    simp only [Bucket.insert, List.mem_singleton] at hx
    exact Or.inl (by rw [hx])
  | cons hd rest ih =>
    obtain ⟨k0, v0⟩ := hd
    unfold Bucket.insert at hx
    split_ifs at hx with h1 h2
    · rcases List.mem_cons.mp hx with rfl | h
      · exact Or.inl rfl
      · exact Or.inr h
    · rcases List.mem_cons.mp hx with rfl | h
      · exact Or.inl rfl
      · exact Or.inr (List.mem_cons_of_mem _ h)
    · rcases List.mem_cons.mp hx with rfl | h
      · exact Or.inr (List.mem_cons_self _ _)
      · rcases ih h with h3 | h3
        · exact Or.inl h3
        · exact Or.inr (List.mem_cons_of_mem _ h3)

/-- `Put` keeps a bucket in key order. -/
theorem Bucket.insert_ordered {β : Type} (b : Bucket β) (key : String) (value : β)
    (h : b.Ordered) : (Bucket.insert key value b).Ordered := by
  induction b with
  | nil => simp [Bucket.insert, Bucket.Ordered]
  | cons hd rest ih =>
    obtain ⟨k0, v0⟩ := hd
    unfold Bucket.Ordered at h ih ⊢
    rw [List.pairwise_cons] at h
    obtain ⟨hhd, htl⟩ := h
    unfold Bucket.insert
    split_ifs with h1 h2
    · refine List.pairwise_cons.mpr ⟨?_, List.pairwise_cons.mpr ⟨hhd, htl⟩⟩
      intro y hy
      rcases List.mem_cons.mp hy with rfl | hy1
      · exact h1
      · exact lt_trans h1 (hhd y hy1)
    · subst h2
      exact List.pairwise_cons.mpr ⟨hhd, htl⟩
    · refine List.pairwise_cons.mpr ⟨?_, ih htl⟩
      intro y hy
      rcases Bucket.mem_insert rest key value y hy with h3 | h3
      · rw [h3]
        rcases lt_trichotomy key.data k0.data with h4 | h4 | h4
        · exact absurd h4 h1
        · exact absurd (String.ext h4) h2
        · exact h4
      · exact hhd y h3

end bolt

namespace blueprint
open bolt

theorem putIndexes_ok {uuid name : String} {ib ib1 : Bucket String}
    (h : putIndexes uuid [uuid, name] ib = .ok ib1) (hu : uuid ≠ "") :
    ib1 = if name = "" then Bucket.insert uuid uuid ib
      else Bucket.insert name uuid (Bucket.insert uuid uuid ib) := by
  simp only [putIndexes, hu, if_false] at h
  cases hp : Bucket.Put ib uuid uuid with
  | error e => simp [hp] at h
  | ok ib2 =>
    obtain ⟨-, rfl⟩ := Bucket.put_ok hp
    simp only [hp] at h
    by_cases hn : name = ""
    · simp only [hn, if_true] at h ⊢
      cases h; rfl
    · simp only [hn, if_false] at h ⊢
      cases hq : Bucket.Put (Bucket.insert uuid uuid ib) name uuid with
      | error e => simp [hq] at h
      | ok ib3 =>
        obtain ⟨-, rfl⟩ := Bucket.put_ok hq
        simp only [hq] at h
        cases h; rfl

theorem save_ok {env : Env} {db : DB} {bp : Blueprint} (h : (db.Save env bp).err = none) :
    ∃ bpproto, env.Verify bp = none ∧ env.MarshalBlueprint bp = .ok bpproto ∧ bp.UUID ≠ "" ∧
      db.Save env bp =
        ⟨⟨Bucket.insert bp.UUID bpproto db.primary,
          if bp.Name = "" then Bucket.insert bp.UUID bp.UUID db.index
          else Bucket.insert bp.Name bp.UUID (Bucket.insert bp.UUID bp.UUID db.index)⟩,
         none, true⟩ := by
  unfold DB.Save at h ⊢
  cases hv : env.Verify bp with
  | some e => simp [hv] at h
  | none =>
    cases hc : checkProfiles env bp.Name bp.ProfileIdentifiers with
    | some e => simp [hv, hc] at h
    | none =>
      cases hm : env.MarshalBlueprint bp with
      | error e => simp [hv, hc, hm] at h
      | ok bpproto =>
        cases hi : putIndexes bp.UUID [bp.UUID, bp.Name] db.index with
        | error e => simp [hv, hc, hm, hi] at h
        | ok idxBucket =>
          cases hp : Bucket.Put db.primary bp.UUID bpproto with
          | error e => simp [hv, hc, hm, hi, hp] at h
          | ok bkt =>
            obtain ⟨hu, rfl⟩ := Bucket.put_ok hp
            have := putIndexes_ok hi hu
            subst this
            exact ⟨bpproto, rfl, rfl, hu, by simp [hp]⟩

theorem create_ok {env : Env} {db : DB} {bp : Blueprint} (h : (db.Create env bp).err = none) :
    db.Create env bp = db.Save env bp := by
  unfold DB.Create at h ⊢
  cases hb : db.BlueprintByName env bp.Name with
  | error e =>
    rw [hb] at h
    by_cases hn : isNotFound e = true <;> simp [hn] at h
  | ok found => rfl

theorem lookup_of_index {env : Env} {db : DB} {k id : String} {b : Bytes}
    (hi : db.index.Get k = some id) (hp : db.primary.Get id = some b) :
    db.BlueprintByName env k = env.UnmarshalBlueprint b := by
  simp [DB.BlueprintByName, hi, hp]

/-- Without an index entry the lookup fails with the not-found error. -/
theorem lookup_no_index (env : Env) (db : DB) (name : String) (h : db.index.Get name = none) :
    db.BlueprintByName env name = .error (.notFound "Blueprint" ("name " ++ name)) := by
  simp [DB.BlueprintByName, h]

/-- As written, `Create` refuses every name that is not indexed. -/
theorem create_of_no_index (env : Env) (db : DB) (bp : Blueprint)
    (h : db.index.Get bp.Name = none) :
    db.Create env bp = ⟨db, some (.new "blueprint must have a unique name"), false⟩ := by
  simp [DB.Create, lookup_no_index env db bp.Name h, isNotFound]

/-- As written, `Create` is `Save` for every name the lookup finds. -/
theorem create_of_found (env : Env) (db : DB) (bp found : Blueprint)
    (h : db.BlueprintByName env bp.Name = .ok found) : db.Create env bp = db.Save env bp := by
  simp [DB.Create, h]

theorem index_of_lookup {env : Env} {db : DB} {k : String} {bp : Blueprint}
    (h : db.BlueprintByName env k = .ok bp) : ∃ id, db.index.Get k = some id := by
  cases hi : db.index.Get k with
  | none => simp [DB.BlueprintByName, hi] at h
  | some id => exact ⟨id, rfl⟩

theorem demo_roundtrip (profiles : String → Option GoError) : (demoEnv profiles).RoundTrip := by
  intro bp b h
  simp only [demoEnv, demoMarshal] at h ⊢
  split_ifs at h <;> (cases h; subst_vars; rfl)

theorem demo_verify_name (profiles : String → Option GoError) :
    (demoEnv profiles).VerifyNeedsName := by
  intro bp h hn
  simp [demoEnv, demoVerify, hn] at h

/-- C4: assuming the decoder inverts the encoder and `Verify` rejects an empty
name, after a successful `Save` (or `Create`) of `e` the index maps `e.Name`
and `e.UUID` to `e.UUID`, and `BlueprintByName` on the name (and on the uuid)
returns `e`. -/
theorem save_then_lookup_by_name (env : Env) (db : DB) (e : Blueprint) (r : SaveResult)
    (hRT : env.RoundTrip) (hV : env.VerifyNeedsName)
    (hr : r = db.Save env e ∨ r = db.Create env e)
    (hS : r.err = none) :
    r.db.index.Get e.Name = some e.UUID ∧ r.db.index.Get e.UUID = some e.UUID ∧
      r.db.BlueprintByName env e.Name = .ok e ∧ r.db.BlueprintByName env e.UUID = .ok e := by
  have hrs : r = db.Save env e := by
    rcases hr with h | h
    · exact h
    · rw [h]
      exact create_ok (h ▸ hS)
  subst hrs
  obtain ⟨bpproto, hv, hm, hu, hsave⟩ := save_ok hS
  have hn := hV e hv
  rw [hsave]
  simp only [hn, if_false]
  have h1 : (Bucket.insert e.Name e.UUID (Bucket.insert e.UUID e.UUID db.index)).Get e.Name
      = some e.UUID := by simp [Bucket.get_insert]
  have h2 : (Bucket.insert e.Name e.UUID (Bucket.insert e.UUID e.UUID db.index)).Get e.UUID
      = some e.UUID := by
    by_cases hnu : e.Name = e.UUID <;> simp [Bucket.get_insert, hnu]
  have h3 : (Bucket.insert e.UUID bpproto db.primary).Get e.UUID = some bpproto := by
    simp [Bucket.get_insert]
  refine ⟨h1, h2, ?_, ?_⟩
  · rw [lookup_of_index h1 h3]
    exact hRT e bpproto hm
  · rw [lookup_of_index h2 h3]
    exact hRT e bpproto hm

/-- C4 at a concrete input: saving the blueprint base into the empty store. -/
theorem save_then_lookup_by_name_witness :
    (DB.empty.Save (demoEnv noProfiles) bpBase).err = none ∧
      (DB.empty.Save (demoEnv noProfiles) bpBase).db.BlueprintByName (demoEnv noProfiles) "base"
        = .ok bpBase :=
  ⟨by decide, (save_then_lookup_by_name (demoEnv noProfiles) DB.empty bpBase _
    (demo_roundtrip noProfiles) (demo_verify_name noProfiles) (Or.inl rfl) (by decide)).2.2.1⟩

/-- What holds of every index entry of a reachable store. -/
theorem reachable_inv {marshal : Blueprint → Except GoError Bytes} {hist : List Blueprint}
    {db : DB} (hR : Reachable marshal hist db) :
    ∀ k id, db.index.Get k = some id →
      (∃ bp b, hist.find? (fun e => decide (e.UUID = id)) = some bp ∧ marshal bp = .ok b ∧
        db.primary.Get id = some b) ∧
      (∃ e ∈ hist, e.UUID = id ∧ (e.Name = k ∨ e.UUID = k)) := by
  induction hR with
  | empty =>
    intro k id h
    simp [DB.empty, Bucket.Get] at h
  | @save hist db env bp hm hR hS ih =>
    obtain ⟨bpproto, -, hmar, hu, hsave⟩ := save_ok hS
    rw [hm] at hmar
    intro k id hget
    rw [hsave] at hget ⊢
    simp only at hget ⊢
    have key : (id = bp.UUID ∧ (bp.Name = k ∨ bp.UUID = k)) ∨ db.index.Get k = some id := by
      by_cases hn : bp.Name = ""
      · simp only [hn, if_true, Bucket.get_insert] at hget
        split_ifs at hget with h1
        · left
          exact ⟨by cases hget; rfl, Or.inr h1⟩
        · right
          exact hget
      · simp only [hn, if_false, Bucket.get_insert] at hget
        split_ifs at hget with h1 h2
        · left
          exact ⟨by cases hget; rfl, Or.inl h1⟩
        · left
          exact ⟨by cases hget; rfl, Or.inr h2⟩
        · right
          exact hget
    rcases key with ⟨rfl, hk⟩ | hold
    · refine ⟨⟨bp, bpproto, by simp, hmar, by simp [Bucket.get_insert]⟩, bp, by simp, rfl, hk⟩
    · obtain ⟨⟨bp1, b1, hf, hm1, hp1⟩, e, he, heu, hek⟩ := ih k id hold
      refine ⟨?_, e, List.mem_cons_of_mem _ he, heu, hek⟩
      by_cases hid : bp.UUID = id
      · subst hid
        exact ⟨bp, bpproto, by simp, hmar, by simp [Bucket.get_insert]⟩
      · exact ⟨bp1, b1, by simp [List.find?, hid, hf], hm1, by simp [Bucket.get_insert, hid, hp1]⟩

/-- C5 (amended): in a store reached from the empty one by successful `Save`
calls, the decoder inverting the encoder, every index entry points to a primary record, every indexed key
resolves, and what `BlueprintByName k` returns is the blueprint last saved
under the uuid that `k` indexes, `k` being the name or the uuid of some
blueprint saved under that uuid, not necessarily the last one. -/
theorem reachable_lookup (env : Env) (hist : List Blueprint) (db : DB)
    (hRT : env.RoundTrip) (hR : Reachable env.MarshalBlueprint hist db) :
    (∀ k id, db.index.Get k = some id →
      (∃ v, db.primary.Get id = some v) ∧
      ∃ bp, db.BlueprintByName env k = .ok bp ∧ bp.UUID = id) ∧
    (∀ k bp, db.BlueprintByName env k = .ok bp →
      db.index.Get k = some bp.UUID ∧
      hist.find? (fun e => decide (e.UUID = bp.UUID)) = some bp ∧
      ∃ e ∈ hist, e.UUID = bp.UUID ∧ (e.Name = k ∨ e.UUID = k)) := by
  have inv := reachable_inv hR
  have look : ∀ k id, db.index.Get k = some id →
      ∃ bp b, hist.find? (fun e => decide (e.UUID = id)) = some bp ∧
        db.primary.Get id = some b ∧ db.BlueprintByName env k = .ok bp ∧ bp.UUID = id := by
    intro k id hget
    obtain ⟨⟨bp, b, hf, hm, hp⟩, -⟩ := inv k id hget
    refine ⟨bp, b, hf, hp, ?_, ?_⟩
    · rw [lookup_of_index hget hp]
      exact hRT bp b hm
    · simpa using List.find?_some hf
  constructor
  · intro k id hget
    obtain ⟨bp, b, -, hp, hl, hu⟩ := look k id hget
    exact ⟨⟨b, hp⟩, bp, hl, hu⟩
  · intro k bp hl
    obtain ⟨id, hget⟩ := index_of_lookup hl
    obtain ⟨bp1, b, hf, -, hl1, hu⟩ := look k id hget
    rw [hl] at hl1
    cases hl1
    subst hu
    exact ⟨hget, hf, (inv k _ hget).2⟩

/-- C5 (amended) at concrete inputs: the store after one save, and the store
after a save and a rename under the same uuid, where the former name resolves
to the blueprint last saved under that uuid. -/
theorem reachable_lookup_witness :
    Reachable (demoEnv noProfiles).MarshalBlueprint [bpBase] baseDB ∧
      baseDB.index.Get "base" = some bpBase.UUID ∧
      Reachable (demoEnv noProfiles).MarshalBlueprint [bpRenamed, bpBase] renamedDB ∧
      (renamedDB.index.Get "base" = some bpRenamed.UUID ∧
        [bpRenamed, bpBase].find? (fun e => decide (e.UUID = bpRenamed.UUID)) = some bpRenamed ∧
        ∃ e ∈ [bpRenamed, bpBase], e.UUID = bpRenamed.UUID ∧ (e.Name = "base" ∨ e.UUID = "base")) :=
  ⟨Reachable.save (demoEnv noProfiles) bpBase rfl Reachable.empty (by decide),
    ((reachable_lookup (demoEnv noProfiles) [bpBase] baseDB (demo_roundtrip noProfiles)
      (Reachable.save (demoEnv noProfiles) bpBase rfl Reachable.empty (by decide))).2
        "base" bpBase rfl).1,
    Reachable.save (demoEnv noProfiles) bpRenamed rfl
      (Reachable.save (demoEnv noProfiles) bpBase rfl Reachable.empty (by decide)) (by decide),
    (reachable_lookup (demoEnv noProfiles) [bpRenamed, bpBase] renamedDB
      (demo_roundtrip noProfiles)
      (Reachable.save (demoEnv noProfiles) bpRenamed rfl
        (Reachable.save (demoEnv noProfiles) bpBase rfl Reachable.empty (by decide))
        (by decide))).2 "base" bpRenamed rfl⟩

/-- C5 (as stated, refuted): after saving a blueprint as base and then, under
the same uuid, as main, the store is reachable by successful saves, yet the
key base still resolves, to a blueprint whose name and uuid both differ from
base. -/
theorem renamed_blueprint_old_name_resolves :
    Reachable demoMarshal [bpRenamed, bpBase] renamedDB ∧
      renamedDB.BlueprintByName (demoEnv noProfiles) "base" = .ok bpRenamed ∧
      ¬ (bpRenamed.Name = "base" ∨ bpRenamed.UUID = "base") :=
  ⟨Reachable.save (demoEnv noProfiles) bpRenamed rfl
      (Reachable.save (demoEnv noProfiles) bpBase rfl Reachable.empty (by decide)) (by decide),
    rfl, by decide⟩

/-- C1 (code evaluated): on the empty store `Create` of a blueprint named
base returns the unique-name error although `Save` of it succeeds; once base
is stored, `Create` of a second blueprint named base is its `Save`, succeeds,
and `List` then returns two blueprints named base. -/
theorem create_rejects_fresh_name :
    DB.empty.BlueprintByName (demoEnv noProfiles) bpBase.Name
        = .error (.notFound "Blueprint" "name base") ∧
      DB.empty.Create (demoEnv noProfiles) bpBase
        = ⟨DB.empty, some (.new "blueprint must have a unique name"), false⟩ ∧
      (DB.empty.Save (demoEnv noProfiles) bpBase).err = none ∧
      baseDB.BlueprintByName (demoEnv noProfiles) bpBase2.Name = .ok bpBase ∧
      baseDB.Create (demoEnv noProfiles) bpBase2 = baseDB.Save (demoEnv noProfiles) bpBase2 ∧
      (baseDB.Create (demoEnv noProfiles) bpBase2).err = none ∧
      baseDB.List (demoEnv noProfiles) = ([bpBase], none) ∧
      (baseDB.Create (demoEnv noProfiles) bpBase2).db.List (demoEnv noProfiles)
        = ([bpBase, bpBase2], none) :=
  ⟨rfl, by decide, by decide, rfl, by decide, by decide, by decide, by decide⟩

/-- C6 (code evaluated): with an index entry a -> u1 and no primary record
under u1, `BlueprintByName` hands the nil slice to the decoder and returns
what the decoder returns, for every decoder; with a decoder that reads the
empty message it returns a blueprint. -/
theorem lookup_dangling_index_decodes_nil (env : Env) :
    danglingDB.index.Get "a" = some "u1" ∧ danglingDB.primary.Get "u1" = none ∧
      danglingDB.BlueprintByName env "a" = env.UnmarshalBlueprint [] ∧
      danglingDB.BlueprintByName (demoEnv noProfiles) "a" = .ok ⟨"", "", [], []⟩ :=
  ⟨rfl, rfl, rfl, rfl⟩

/-- The loop over the identifiers returns at the first lookup that fails. -/
theorem checkProfiles_first_failure (env : Env) (name : String) (pre : List String) (p : String)
    (post : List String) (err : GoError) (hPre : ∀ q ∈ pre, env.ProfileById q = none)
    (hp : env.ProfileById p = some err) :
    checkProfiles env name (pre ++ p :: post)
      = some (if env.IsNotFound err = true then
          .new ("Profile ID " ++ p ++ " in Blueprint " ++ name ++ " does not exist")
        else .wrap err "fetching profile") := by
  induction pre with
  | nil => by_cases hnf : env.IsNotFound err = true <;> simp [checkProfiles, hp, hnf]
  | cons q pre ih =>
    have hq := hPre q (by simp)
    simp only [List.cons_append, checkProfiles, hq]
    exact ih (fun q1 h1 => hPre q1 (List.mem_cons_of_mem _ h1))

theorem checkProfiles_some_of_failing (env : Env) (name : String) (ids : List String) (p : String)
    (hmem : p ∈ ids) (hp : env.ProfileById p ≠ none) : checkProfiles env name ids ≠ none := by
  induction ids with
  | nil => simp at hmem
  | cons q rest ih =>
    unfold checkProfiles
    cases hq : env.ProfileById q with
    | some e => by_cases hn : env.IsNotFound e = true <;> simp [hn]
    | none =>
      simp only
      rcases List.mem_cons.mp hmem with rfl | h
      · exact absurd hq hp
      · exact ih h

/-- C3 (amended): for a blueprint that passes `Verify`, if some identifier of
`bp.ProfileIdentifiers` is absent from the profile store, `Save` fails without
calling `Begin` and leaves both buckets as they were. The error comes from
the first identifier `p` whose lookup fails, the lookups of all identifiers
before it succeeding: if `p` is absent the error is
"Profile ID p in Blueprint name does not exist", and if the lookup of `p`
fails with an error that is not not-found, the error is that one wrapped as
"fetching profile", whatever identifiers are absent after `p`. -/
theorem save_dangling_reference (env : Env) (db : DB) (bp : Blueprint)
    (hV : env.Verify bp = none) :
    (∀ p ∈ bp.ProfileIdentifiers,
      (∃ err, env.ProfileById p = some err ∧ env.IsNotFound err = true) →
        (db.Save env bp).err ≠ none ∧ (db.Save env bp).txBegun = false ∧
          (db.Save env bp).db = db) ∧
    (∀ pre p post err, bp.ProfileIdentifiers = pre ++ p :: post →
      (∀ q ∈ pre, env.ProfileById q = none) →
      env.ProfileById p = some err → env.IsNotFound err = true →
        db.Save env bp = ⟨db, some (.new
          ("Profile ID " ++ p ++ " in Blueprint " ++ bp.Name ++ " does not exist")), false⟩) ∧
    (∀ pre p post err, bp.ProfileIdentifiers = pre ++ p :: post →
      (∀ q ∈ pre, env.ProfileById q = none) →
      env.ProfileById p = some err → env.IsNotFound err = false →
        db.Save env bp = ⟨db, some (.wrap err "fetching profile"), false⟩) := by
  refine ⟨?_, ?_, ?_⟩
  · rintro p hmem ⟨err, hp, -⟩
    have hc := checkProfiles_some_of_failing env bp.Name bp.ProfileIdentifiers p hmem
      (by simp [hp])
    cases hcp : checkProfiles env bp.Name bp.ProfileIdentifiers with
    | none => exact absurd hcp hc
    | some e => simp [DB.Save, hV, hcp]
  · intro pre p post err hids hPre hp hnf
    have hc := checkProfiles_first_failure env bp.Name pre p post err hPre hp
    rw [← hids] at hc
    simp [DB.Save, hV, hc, hnf]
  · intro pre p post err hids hPre hp hnf
    have hc := checkProfiles_first_failure env bp.Name pre p post err hPre hp
    rw [← hids] at hc
    simp [DB.Save, hV, hc, hnf]

/-- C3 (amended) at concrete inputs, the first reference being to a stored
profile: a missing second reference is named; an unreadable second reference
gives the wrapped error although the third reference is missing, and `Save`
fails without `Begin` and without a change. -/
theorem save_dangling_reference_witness :
    (demoEnv mixedProfiles).Verify bpAbsentSecond = none ∧
      (demoEnv mixedProfiles).Verify bpBrokenSecond = none ∧
      (∀ q ∈ ["p0"], (demoEnv mixedProfiles).ProfileById q = none) ∧
      DB.empty.Save (demoEnv mixedProfiles) bpAbsentSecond
        = ⟨DB.empty, some (.new "Profile ID p2 in Blueprint prod does not exist"), false⟩ ∧
      DB.empty.Save (demoEnv mixedProfiles) bpBrokenSecond
        = ⟨DB.empty, some (.wrap (.new "unmarshal proto to profile") "fetching profile"),
            false⟩ ∧
      ((DB.empty.Save (demoEnv mixedProfiles) bpBrokenSecond).err ≠ none ∧
        (DB.empty.Save (demoEnv mixedProfiles) bpBrokenSecond).txBegun = false ∧
        (DB.empty.Save (demoEnv mixedProfiles) bpBrokenSecond).db = DB.empty) :=
  ⟨rfl, rfl, by decide,
    (save_dangling_reference (demoEnv mixedProfiles) DB.empty bpAbsentSecond rfl).2.1
      ["p0"] "p2" ["p1"] (.new "not found: Profile id p2") rfl (by decide) rfl (by decide),
    (save_dangling_reference (demoEnv mixedProfiles) DB.empty bpBrokenSecond rfl).2.2
      ["p0"] "p1" ["p2"] (.new "unmarshal proto to profile") rfl (by decide) rfl (by decide),
    (save_dangling_reference (demoEnv mixedProfiles) DB.empty bpBrokenSecond rfl).1
      "p2" (by decide) ⟨.new "not found: Profile id p2", rfl, by decide⟩⟩

/-- C3 (as stated, refuted): with the identifiers p1, p2, where the lookup of
p1 fails with an error that is not not-found and p2 is absent, `Save` returns
"fetching profile: ..." and not the message naming p2, the first absent
identifier. -/
theorem save_lookup_error_before_absent :
    (demoEnv brokenProfiles).Verify bpProd2 = none ∧
      bpProd2.ProfileIdentifiers = ["p1", "p2"] ∧
      brokenProfiles "p1" = some (.new "unmarshal proto to profile") ∧
      (demoEnv brokenProfiles).IsNotFound (.new "unmarshal proto to profile") = false ∧
      brokenProfiles "p2" = some (.new "not found: Profile id p2") ∧
      (demoEnv brokenProfiles).IsNotFound (.new "not found: Profile id p2") = true ∧
      DB.empty.Save (demoEnv brokenProfiles) bpProd2
        = ⟨DB.empty, some (.wrap (.new "unmarshal proto to profile") "fetching profile"), false⟩ ∧
      (GoError.wrap (.new "unmarshal proto to profile") "fetching profile").Error
        = "fetching profile: unmarshal proto to profile" ∧
      (GoError.wrap (.new "unmarshal proto to profile") "fetching profile").Error
        ≠ "Profile ID p2 in Blueprint prod does not exist" := by
  decide

theorem applyAtLoop_eq (env : Env) (name : String) (bp : Blueprint) (labels : List String)
    (bps : List Blueprint) :
    applyAtLoop env name bp labels bps
      = if labels.any (fun n => decide (env.ToLower n = env.ToLower name)) then bps ++ [bp]
        else bps := by
  induction labels with
  | nil => rfl
  | cons n rest ih =>
    by_cases h : env.ToLower n = env.ToLower name <;> simp [applyAtLoop, h, ih]

theorem byApplyAtLoop_eq (env : Env) (name : String) (b : Bucket Bytes) (bps : List Blueprint) :
    byApplyAtLoop env name b bps
      = bps ++ (b.filterMap (fun kv => decoded env kv.2)).filter
          (fun bp => bp.ApplyAt.any (fun n => decide (env.ToLower n = env.ToLower name))) := by
  induction b generalizing bps with
  | nil => simp [byApplyAtLoop]
  | cons hd rest ih =>
    obtain ⟨k, v⟩ := hd
    unfold byApplyAtLoop
    cases hu : env.UnmarshalBlueprint v with
    | error e => simp [ih, decoded, hu]
    | ok bp =>
      simp only [applyAtLoop_eq]
      by_cases hm : bp.ApplyAt.any (fun n => decide (env.ToLower n = env.ToLower name)) = true
      · simp [ih, decoded, hu, hm]
      · simp [ih, decoded, hu, hm]

/-- C10: `BlueprintsByApplyAt` returns no error and exactly the trigger scan
of the spec: the stored records that decode and carry a label equal to the
given one after lower-casing both, each once, in the cursor order of the
primary bucket; records that fail to decode are passed over. -/
theorem blueprintsByApplyAt_eq_listByTrigger (env : Env) (db : DB) (label : String) :
    db.BlueprintsByApplyAt env label = (listByTrigger env db label, none) := by
  simp [DB.BlueprintsByApplyAt, listByTrigger, byApplyAtLoop_eq]

end blueprint

namespace depsync

theorem Run_cons (M : Event → Except GoError Bytes) (ph : Phase) (st : State) (a : Answers)
    (rest : List Answers) :
    Run M ph st (a :: rest) =
      match (turn M ph st a).next with
      | .ret _ => turn M ph st a
      | .goto ph1 =>
        ⟨(turn M ph st a).trace ++ (Run M ph1 (turn M ph st a).st rest).trace,
          (Run M ph1 (turn M ph st a).st rest).st, (Run M ph1 (turn M ph st a).st rest).next⟩ := by
  rw [Run]
  rcases turn M ph st a with ⟨tr, st1, nx⟩
  cases nx <;> rfl

theorem turn_head (M : Event → Except GoError Bytes) (ph : Phase) (st : State) (a : Answers) :
    ∃ tl, (turn M ph st a).trace = firstCall ph st a :: tl := by
  cases ph
  · simp only [turn, turnFETCH, firstCall]
    split
    · split <;> exact ⟨_, rfl⟩
    · split
      · exact ⟨_, rfl⟩
      · split
        · exact ⟨_, rfl⟩
        · split
          · exact ⟨_, rfl⟩
          · split <;> exact ⟨_, rfl⟩
  · simp only [turn, turnSYNC, firstCall]
    split
    · split <;> exact ⟨_, rfl⟩
    · split <;> exact ⟨_, rfl⟩

theorem Run_head (M : Event → Except GoError Bytes) (ph : Phase) (st : State) (a : Answers)
    (rest : List Answers) :
    ∃ tl, (Run M ph st (a :: rest)).trace = firstCall ph st a :: tl := by
  rw [Run_cons]
  obtain ⟨tl, htl⟩ := turn_head M ph st a
  cases hn : (turn M ph st a).next with
  | ret e => exact ⟨tl, htl⟩
  | goto ph1 => exact ⟨tl ++ (Run M ph1 (turn M ph st a).st rest).trace, by simp [htl]⟩

/-- Every cursor stamped more than seven days before the clock reading
passes `Valid`. -/
theorem stale_cursor_passes_valid (c : cursor) (now : Int)
    (h : c.CreatedAt + 24 * 7 * Hour < now) : c.Valid now = true := by
  have hH : (0 : Int) ≤ 24 * 7 * Hour := by decide
  have hle : ¬ c.CreatedAt > now + 24 * 7 * Hour := by
    generalize 24 * 7 * Hour = w at h hH
    omega
  simp only [cursor.Valid]
  rw [if_neg hle]

/-- C2 (code evaluated): a cursor stamped eight days before the clock reading
passes `Valid`, `New` keeps its value, and the first call of `Run` is
`FetchDevices` with that value, not with the empty cursor. -/
theorem stale_cursor_kept (M : Event → Except GoError Bytes) (a : Answers)
    (rest : List Answers) :
    staleConf.Cursor.CreatedAt + 24 * 7 * Hour < eightDays ∧
      staleConf.Cursor.Valid eightDays = true ∧
      New (.ok staleConf) eightDays = .ok staleConf ∧
      (Run M .FETCH ⟨staleConf, some staleConf.Cursor⟩ (a :: rest)).trace.head?
        = some (.FetchDevices 100 "C0" a.api) := by
  refine ⟨by decide, by decide, rfl, ?_⟩
  obtain ⟨tl, htl⟩ := Run_head M .FETCH ⟨staleConf, some staleConf.Cursor⟩ a rest
  rw [htl]
  rfl

/-- C8: in the SYNC loop, when `SyncDevices` fails with an error whose text
contains EXPIRED_CURSOR, the turn makes no other action, empties the cursor
value in memory and jumps to FETCH; `Run` goes on from there, and its next
action is `FetchDevices` with limit 100 and the empty cursor. -/
theorem sync_expired_restarts_fetch (M : Event → Except GoError Bytes) (st : State)
    (a : Answers) (rest : List Answers) (err : GoError)
    (hApi : a.api = .error err) (hExp : isCursorExpired err = true) :
    turn M .SYNC st a =
      ⟨[.SyncDevices st.conf.Cursor.Value st.conf.Cursor.Value (.error err)],
        ⟨⟨⟨"", st.conf.Cursor.CreatedAt⟩⟩, st.saved⟩, .goto .FETCH⟩ ∧
    Run M .SYNC st (a :: rest) =
      ⟨.SyncDevices st.conf.Cursor.Value st.conf.Cursor.Value (.error err) ::
          (Run M .FETCH ⟨⟨⟨"", st.conf.Cursor.CreatedAt⟩⟩, st.saved⟩ rest).trace,
        (Run M .FETCH ⟨⟨⟨"", st.conf.Cursor.CreatedAt⟩⟩, st.saved⟩ rest).st,
        (Run M .FETCH ⟨⟨⟨"", st.conf.Cursor.CreatedAt⟩⟩, st.saved⟩ rest).next⟩ ∧
    ∀ b rest1, rest = b :: rest1 →
      (Run M .SYNC st (a :: rest)).trace[1]? = some (.FetchDevices 100 "" b.api) := by
  have hturn : turn M .SYNC st a =
      ⟨[.SyncDevices st.conf.Cursor.Value st.conf.Cursor.Value (.error err)],
        ⟨⟨⟨"", st.conf.Cursor.CreatedAt⟩⟩, st.saved⟩, .goto .FETCH⟩ := by
    simp [turn, turnSYNC, hApi, hExp]
  have hrun : Run M .SYNC st (a :: rest) =
      ⟨.SyncDevices st.conf.Cursor.Value st.conf.Cursor.Value (.error err) ::
          (Run M .FETCH ⟨⟨⟨"", st.conf.Cursor.CreatedAt⟩⟩, st.saved⟩ rest).trace,
        (Run M .FETCH ⟨⟨⟨"", st.conf.Cursor.CreatedAt⟩⟩, st.saved⟩ rest).st,
        (Run M .FETCH ⟨⟨⟨"", st.conf.Cursor.CreatedAt⟩⟩, st.saved⟩ rest).next⟩ := by
    rw [Run_cons, hturn]
    rfl
  refine ⟨hturn, hrun, ?_⟩
  rintro b rest1 rfl
  obtain ⟨tl, htl⟩ := Run_head M .FETCH ⟨⟨⟨"", st.conf.Cursor.CreatedAt⟩⟩, st.saved⟩ b rest1
  rw [hrun]
  simp [htl, firstCall]

/-- C9: in the FETCH loop, when `FetchDevices` fails with an error whose text
contains EXHAUSTED_CURSOR, the turn saves and publishes nothing, leaves the
state as it was and jumps to SYNC, so that the next action of `Run` is
`SyncDevices` with the same cursor; on any other error `Run` returns that
error after the call alone, the state as it was. -/
theorem fetch_error_exhausted_or_abort (M : Event → Except GoError Bytes) (st : State)
    (a : Answers) (rest : List Answers) (err : GoError) (hApi : a.api = .error err) :
    (isCursorExhausted err = true →
      turn M .FETCH st a
        = ⟨[.FetchDevices 100 st.conf.Cursor.Value (.error err)], st, .goto .SYNC⟩ ∧
      Run M .FETCH st (a :: rest) =
        ⟨.FetchDevices 100 st.conf.Cursor.Value (.error err) :: (Run M .SYNC st rest).trace,
          (Run M .SYNC st rest).st, (Run M .SYNC st rest).next⟩ ∧
      ∀ b rest1, rest = b :: rest1 →
        (Run M .FETCH st (a :: rest)).trace[1]?
          = some (.SyncDevices st.conf.Cursor.Value st.conf.Cursor.Value b.api)) ∧
    (isCursorExhausted err = false →
      Run M .FETCH st (a :: rest)
        = ⟨[.FetchDevices 100 st.conf.Cursor.Value (.error err)], st, .ret err⟩) := by
  constructor
  · intro hExh
    have hturn : turn M .FETCH st a
        = ⟨[.FetchDevices 100 st.conf.Cursor.Value (.error err)], st, .goto .SYNC⟩ := by
      simp [turn, turnFETCH, hApi, hExh]
    have hrun : Run M .FETCH st (a :: rest) =
        ⟨.FetchDevices 100 st.conf.Cursor.Value (.error err) :: (Run M .SYNC st rest).trace,
          (Run M .SYNC st rest).st, (Run M .SYNC st rest).next⟩ := by
      rw [Run_cons, hturn]
      rfl
    refine ⟨hturn, hrun, ?_⟩
    rintro b rest1 rfl
    obtain ⟨tl, htl⟩ := Run_head M .SYNC st b rest1
    rw [hrun]
    simp [htl, firstCall]
  · intro hExh
    have hturn : turn M .FETCH st a
        = ⟨[.FetchDevices 100 st.conf.Cursor.Value (.error err)], st, .ret err⟩ := by
      simp [turn, turnFETCH, hApi, hExh]
    rw [Run_cons, hturn]

theorem turn_publish (M : Event → Except GoError Bytes) (ph : Phase) (st : State) (a : Answers)
    (i : Nat) (topic : String) (data : Bytes) (res : Option GoError)
    (h : (turn M ph st a).trace[i]? = some (.Publish topic data res)) :
    i = 2 ∧ topic = SyncTopic ∧ (turn M ph st a).trace.length = 3 ∧
      ∃ v resp c ev, (turn M ph st a).trace[0]? = some (.FetchDevices 100 v (.ok resp)) ∧
        (turn M ph st a).trace[1]? = some (.Save c none) ∧ c.Value = resp.Cursor ∧
        ev.Devices = resp.Devices ∧ M ev = .ok data ∧ (turn M ph st a).st.saved = some c ∧
        ∀ e, res = some e → (turn M ph st a).next = .ret e := by
  cases ph
  · cases hapi : a.api with
    | error e =>
      by_cases hx : isCursorExhausted e = true <;>
        simp only [turn, turnFETCH, hapi, hx] at h <;>
        rcases i with _ | i <;> simp at h
    | ok resp =>
      cases hs : a.save with
      | some e =>
        simp only [turn, turnFETCH, hapi, hs] at h
        rcases i with _ | _ | i <;> simp at h
      | none =>
        cases hm : M (NewEvent a.eventID a.eventTime resp.Devices) with
        | error e =>
          simp only [turn, turnFETCH, hapi, hs, hm] at h
          rcases i with _ | _ | i <;> simp at h
        | ok data1 =>
          cases hp : a.publish with
          | some e =>
            simp only [turn, turnFETCH, hapi, hs, hm, hp] at h ⊢
            rcases i with _ | _ | _ | i <;> simp at h
            obtain ⟨rfl, rfl, rfl⟩ := h
            exact ⟨rfl, rfl, rfl, _, resp, _, _, rfl, rfl, rfl, rfl, hm, rfl, by simp⟩
          | none =>
            by_cases hmore : resp.MoreToFollow = true <;>
              simp only [turn, turnFETCH, hapi, hs, hm, hp, hmore] at h ⊢ <;>
              rcases i with _ | _ | _ | i <;> simp at h <;>
              obtain ⟨rfl, rfl, rfl⟩ := h <;>
              exact ⟨rfl, rfl, rfl, _, resp, _, _, rfl, rfl, rfl, rfl, hm, rfl, by simp⟩
  · cases hapi : a.api with
    | error e =>
      by_cases hx : isCursorExpired e = true <;>
        simp only [turn, turnSYNC, hapi, hx] at h <;>
        rcases i with _ | i <;> simp at h
    | ok resp =>
      cases hs : a.save with
      | some e =>
        simp only [turn, turnSYNC, hapi, hs] at h
        rcases i with _ | _ | i <;> simp at h
      | none =>
        simp only [turn, turnSYNC, hapi, hs] at h
        rcases i with _ | _ | _ | i <;> simp at h

theorem Run_ret (M : Event → Except GoError Bytes) (ph : Phase) (st : State) (a : Answers)
    (rest : List Answers) (e : GoError) (hn : (turn M ph st a).next = .ret e) :
    Run M ph st (a :: rest) = turn M ph st a := by
  rw [Run_cons, hn]

theorem Run_goto (M : Event → Except GoError Bytes) (ph : Phase) (st : State) (a : Answers)
    (rest : List Answers) (ph1 : Phase) (hn : (turn M ph st a).next = .goto ph1) :
    Run M ph st (a :: rest) =
      ⟨(turn M ph st a).trace ++ (Run M ph1 (turn M ph st a).st rest).trace,
        (Run M ph1 (turn M ph st a).st rest).st, (Run M ph1 (turn M ph st a).st rest).next⟩ := by
  rw [Run_cons, hn]

theorem append_shift {α : Type} (tr T : List α) (j : Nat) :
    (tr ++ T)[tr.length + j]? = T[j]? := by
  rw [List.getElem?_append_right (Nat.le_add_right _ _)]
  simp

theorem Run_first (M : Event → Except GoError Bytes) (ph : Phase) (st : State)
    (script : List Answers) (x : Action) (h : (Run M ph st script).trace[0]? = some x) :
    x.isAPICall = true := by
  cases script with
  | nil => simp [Run] at h
  | cons a rest =>
    obtain ⟨tl, htl⟩ := Run_head M ph st a rest
    rw [htl] at h
    simp only [List.getElem?_cons_zero, Option.some.injEq] at h
    subst h
    cases ph <;> rfl

theorem turn_fetch_ok (M : Event → Except GoError Bytes) (ph : Phase) (st : State) (a : Answers)
    (i l : Nat) (v : String) (resp : DeviceResponse)
    (h : (turn M ph st a).trace[i]? = some (.FetchDevices l v (.ok resp))) :
    i = 0 ∧ ∃ c res, (turn M ph st a).trace[1]? = some (.Save c res) ∧ c.Value = resp.Cursor ∧
      (((turn M ph st a).trace.length = 2 ∧ ∃ e, (turn M ph st a).next = .ret e) ∨
        ((turn M ph st a).trace.length = 3 ∧ res = none ∧ ∃ data pres ev,
          (turn M ph st a).trace[2]? = some (.Publish SyncTopic data pres) ∧
          ev.Devices = resp.Devices ∧ M ev = .ok data)) := by
  cases ph
  · cases hapi : a.api with
    | error e =>
      by_cases hx : isCursorExhausted e = true <;>
        simp only [turn, turnFETCH, hapi, hx] at h <;>
        rcases i with _ | i <;> simp at h
    | ok resp1 =>
      cases hs : a.save with
      | some e =>
        simp only [turn, turnFETCH, hapi, hs] at h ⊢
        rcases i with _ | _ | i <;> simp at h
        obtain ⟨-, -, rfl⟩ := h
        exact ⟨rfl, _, _, rfl, rfl, Or.inl ⟨rfl, _, rfl⟩⟩
      | none =>
        cases hm : M (NewEvent a.eventID a.eventTime resp1.Devices) with
        | error e =>
          simp only [turn, turnFETCH, hapi, hs, hm] at h ⊢
          rcases i with _ | _ | i <;> simp at h
          obtain ⟨-, -, rfl⟩ := h
          exact ⟨rfl, _, _, rfl, rfl, Or.inl ⟨rfl, _, rfl⟩⟩
        | ok data1 =>
          cases hp : a.publish with
          | some e =>
            simp only [turn, turnFETCH, hapi, hs, hm, hp] at h ⊢
            rcases i with _ | _ | _ | i <;> simp at h
            obtain ⟨-, -, rfl⟩ := h
            exact ⟨rfl, _, _, rfl, rfl, Or.inr ⟨rfl, rfl, _, _, _, rfl, rfl, hm⟩⟩
          | none =>
            by_cases hmore : resp1.MoreToFollow = true <;>
              simp only [turn, turnFETCH, hapi, hs, hm, hp, hmore] at h ⊢ <;>
              rcases i with _ | _ | _ | i <;> simp at h <;>
              obtain ⟨-, -, rfl⟩ := h <;>
              exact ⟨rfl, _, _, rfl, rfl, Or.inr ⟨rfl, rfl, _, _, _, rfl, rfl, hm⟩⟩
  · cases hapi : a.api with
    | error e =>
      by_cases hx : isCursorExpired e = true <;>
        simp only [turn, turnSYNC, hapi, hx] at h <;>
        rcases i with _ | i <;> simp at h
    | ok resp1 =>
      cases hs : a.save with
      | some e =>
        simp only [turn, turnSYNC, hapi, hs] at h
        rcases i with _ | _ | i <;> simp at h
      | none =>
        simp only [turn, turnSYNC, hapi, hs] at h
        rcases i with _ | _ | _ | i <;> simp at h

theorem run_publish_pos (M : Event → Except GoError Bytes) (script : List Answers) :
    ∀ (ph : Phase) (st : State) (i : Nat) (topic : String) (data : Bytes) (res : Option GoError),
      (Run M ph st script).trace[i]? = some (.Publish topic data res) →
      topic = SyncTopic ∧ 2 ≤ i ∧ ∃ v resp c ev,
        (Run M ph st script).trace[i - 2]? = some (.FetchDevices 100 v (.ok resp)) ∧
        (Run M ph st script).trace[i - 1]? = some (.Save c none) ∧ c.Value = resp.Cursor ∧
        ev.Devices = resp.Devices ∧ M ev = .ok data ∧
        ∀ e, res = some e →
          (Run M ph st script).st.saved = some c ∧ (Run M ph st script).next = .ret e := by
  induction script with
  | nil =>
    intro ph st i topic data res h
    simp [Run] at h
  | cons a rest ih =>
    intro ph st i topic data res h
    cases hn : (turn M ph st a).next with
    | ret e0 =>
      rw [Run_ret M ph st a rest e0 hn] at h ⊢
      obtain ⟨rfl, ht, -, v, resp, c, ev, h0, h1, hc, hd, hm, hsv, hres⟩ :=
        turn_publish M ph st a i topic data res h
      exact ⟨ht, le_refl _, v, resp, c, ev, h0, h1, hc, hd, hm, fun e he => ⟨hsv, hres e he⟩⟩
    | goto ph1 =>
      rw [Run_goto M ph st a rest ph1 hn] at h ⊢
      simp only at h ⊢
      by_cases hi : i < (turn M ph st a).trace.length
      · rw [List.getElem?_append_left hi] at h
        obtain ⟨rfl, ht, hlen, v, resp, c, ev, h0, h1, hc, hd, hm, hsv, hres⟩ :=
          turn_publish M ph st a i topic data res h
        refine ⟨ht, le_refl _, v, resp, c, ev, ?_, ?_, hc, hd, hm, ?_⟩
        · rw [List.getElem?_append_left (by omega)]
          exact h0
        · rw [List.getElem?_append_left (by omega)]
          exact h1
        · intro e he
          rw [hres e he] at hn
          cases hn
      · obtain ⟨j, rfl⟩ : ∃ j, i = (turn M ph st a).trace.length + j :=
          ⟨i - (turn M ph st a).trace.length, by omega⟩
        rw [append_shift] at h
        obtain ⟨ht, hj, v, resp, c, ev, h0, h1, hc, hd, hm, hres⟩ :=
          ih ph1 (turn M ph st a).st j topic data res h
        refine ⟨ht, by omega, v, resp, c, ev, ?_, ?_, hc, hd, hm, hres⟩
        · have : (turn M ph st a).trace.length + j - 2
              = (turn M ph st a).trace.length + (j - 2) := by omega
          rw [this, append_shift]
          exact h0
        · have : (turn M ph st a).trace.length + j - 1
              = (turn M ph st a).trace.length + (j - 1) := by omega
          rw [this, append_shift]
          exact h1

theorem run_fetch_pos (M : Event → Except GoError Bytes) (script : List Answers) :
    ∀ (ph : Phase) (st : State) (i l : Nat) (v : String) (resp : DeviceResponse),
      (Run M ph st script).trace[i]? = some (.FetchDevices l v (.ok resp)) →
      ∃ c res, (Run M ph st script).trace[i + 1]? = some (.Save c res) ∧
        c.Value = resp.Cursor ∧
        (∀ x, (Run M ph st script).trace[i + 2]? = some x → x.isAPICall = true ∨
          ∃ data pres ev, x = .Publish SyncTopic data pres ∧ res = none ∧
            ev.Devices = resp.Devices ∧ M ev = .ok data) ∧
        (∀ x y, (Run M ph st script).trace[i + 2]? = some x → x.isAPICall = false →
          (Run M ph st script).trace[i + 3]? = some y → y.isAPICall = true) := by
  induction script with
  | nil =>
    intro ph st i l v resp h
    simp [Run] at h
  | cons a rest ih =>
    intro ph st i l v resp h
    cases hn : (turn M ph st a).next with
    | ret e0 =>
      rw [Run_ret M ph st a rest e0 hn] at h ⊢
      obtain ⟨rfl, c, res, h1, hc, hcase⟩ := turn_fetch_ok M ph st a i l v resp h
      refine ⟨c, res, h1, hc, ?_, ?_⟩
      · intro x hx
        rcases hcase with ⟨hlen, -⟩ | ⟨hlen, hres, data, pres, ev, h2, hd, hm⟩
        · rw [List.getElem?_eq_none (by omega)] at hx
          cases hx
        · rw [h2] at hx
          cases hx
          exact Or.inr ⟨data, pres, ev, rfl, hres, hd, hm⟩
      · intro x y _ _ hy
        have hlen : (turn M ph st a).trace.length ≤ 3 := by
          rcases hcase with ⟨hlen, -⟩ | ⟨hlen, -⟩ <;> omega
        rw [List.getElem?_eq_none (by omega)] at hy
        cases hy
    | goto ph1 =>
      rw [Run_goto M ph st a rest ph1 hn] at h ⊢
      simp only at h ⊢
      by_cases hi : i < (turn M ph st a).trace.length
      · rw [List.getElem?_append_left hi] at h
        obtain ⟨rfl, c, res, h1, hc, hcase⟩ := turn_fetch_ok M ph st a i l v resp h
        rcases hcase with ⟨-, e, he⟩ | ⟨hlen, hres, data, pres, ev, h2, hd, hm⟩
        · rw [he] at hn
          cases hn
        · refine ⟨c, res, ?_, hc, ?_, ?_⟩
          · rw [List.getElem?_append_left (by omega)]
            exact h1
          · intro x hx
            rw [List.getElem?_append_left (by omega), h2] at hx
            cases hx
            exact Or.inr ⟨data, pres, ev, rfl, hres, hd, hm⟩
          · intro x y _ _ hy
            have : 0 + 3 = (turn M ph st a).trace.length + 0 := by omega
            rw [this, append_shift] at hy
            exact Run_first M ph1 _ rest y hy
      · obtain ⟨j, rfl⟩ : ∃ j, i = (turn M ph st a).trace.length + j :=
          ⟨i - (turn M ph st a).trace.length, by omega⟩
        rw [append_shift] at h
        obtain ⟨c, res, h1, hc, h2, h3⟩ := ih ph1 (turn M ph st a).st j l v resp h
        refine ⟨c, res, ?_, hc, ?_, ?_⟩
        · rw [Nat.add_assoc, append_shift]
          exact h1
        · intro x hx
          rw [Nat.add_assoc, append_shift] at hx
          exact h2 x hx
        · intro x y hx hxa hy
          rw [Nat.add_assoc, append_shift] at hx hy
          exact h3 x y hx hxa hy

/-- C7: in the trace of `Run`, a publish is on the topic mdm.DepSync and comes
right after a successful save, which comes right after the `FetchDevices` call
(limit 100) whose page it serves: the saved cursor has the cursor of that page
as value and the payload is the encoding of an event holding the devices of
that page; if the publish fails, `Run` returns that error with the saved
cursor still stored. Every successful fetch is followed at once by one save of
the cursor of its page, then by the next API call or by the publish of the
page, and after that publish comes the next API call. -/
theorem run_publish_follows_save (M : Event → Except GoError Bytes) (ph : Phase) (st : State)
    (script : List Answers) :
    (∀ (i : Nat) (topic : String) (data : Bytes) (res : Option GoError),
      (Run M ph st script).trace[i]? = some (.Publish topic data res) →
      topic = SyncTopic ∧ 2 ≤ i ∧ ∃ v resp c ev,
        (Run M ph st script).trace[i - 2]? = some (.FetchDevices 100 v (.ok resp)) ∧
        (Run M ph st script).trace[i - 1]? = some (.Save c none) ∧ c.Value = resp.Cursor ∧
        ev.Devices = resp.Devices ∧ M ev = .ok data ∧
        ∀ e, res = some e →
          (Run M ph st script).st.saved = some c ∧ (Run M ph st script).next = .ret e) ∧
    (∀ (i l : Nat) (v : String) (resp : DeviceResponse),
      (Run M ph st script).trace[i]? = some (.FetchDevices l v (.ok resp)) →
      ∃ c res, (Run M ph st script).trace[i + 1]? = some (.Save c res) ∧
        c.Value = resp.Cursor ∧
        (∀ x, (Run M ph st script).trace[i + 2]? = some x → x.isAPICall = true ∨
          ∃ data pres ev, x = .Publish SyncTopic data pres ∧ res = none ∧
            ev.Devices = resp.Devices ∧ M ev = .ok data) ∧
        (∀ x y, (Run M ph st script).trace[i + 2]? = some x → x.isAPICall = false →
          (Run M ph st script).trace[i + 3]? = some y → y.isAPICall = true)) :=
  ⟨run_publish_pos M script ph st, run_fetch_pos M script ph st⟩

/-- C7 at a concrete input: a first run that gets one page of three devices. -/
theorem run_publish_follows_save_witness :
    (Run demoMarshalEvent .FETCH freshState [pageAnswer]).trace[2]?
        = some (.Publish SyncTopic [1, 1, 1] none) ∧
      (SyncTopic = SyncTopic ∧ 2 ≤ 2 ∧ ∃ v resp c ev,
        (Run demoMarshalEvent .FETCH freshState [pageAnswer]).trace[2 - 2]?
          = some (.FetchDevices 100 v (.ok resp)) ∧
        (Run demoMarshalEvent .FETCH freshState [pageAnswer]).trace[2 - 1]?
          = some (.Save c none) ∧ c.Value = resp.Cursor ∧
        ev.Devices = resp.Devices ∧ demoMarshalEvent ev = .ok [1, 1, 1] ∧
        ∀ e, (none : Option GoError) = some e →
          (Run demoMarshalEvent .FETCH freshState [pageAnswer]).st.saved = some c ∧
          (Run demoMarshalEvent .FETCH freshState [pageAnswer]).next = .ret e) :=
  ⟨rfl, (run_publish_follows_save demoMarshalEvent .FETCH freshState [pageAnswer]).1
    2 SyncTopic [1, 1, 1] none rfl⟩

/-- C8 at a concrete input: an expired cursor, then a page. -/
theorem sync_expired_restarts_fetch_witness :
    expiredAnswer.api = .error (.new "dep: EXPIRED_CURSOR") ∧
      isCursorExpired (.new "dep: EXPIRED_CURSOR") = true ∧
      (Run demoMarshalEvent .SYNC syncedState [expiredAnswer, pageAnswer]).trace[1]?
        = some (.FetchDevices 100 "" pageAnswer.api) :=
  ⟨rfl, by decide,
    (sync_expired_restarts_fetch demoMarshalEvent syncedState expiredAnswer [pageAnswer]
      (.new "dep: EXPIRED_CURSOR") rfl (by decide)).2.2 pageAnswer [] rfl⟩

/-- C9 at a concrete input: an exhausted cursor, then a page. -/
theorem fetch_error_exhausted_or_abort_witness :
    exhaustedAnswer.api = .error (.new "dep: EXHAUSTED_CURSOR") ∧
      isCursorExhausted (.new "dep: EXHAUSTED_CURSOR") = true ∧
      (Run demoMarshalEvent .FETCH syncedState [exhaustedAnswer, pageAnswer]).trace[1]?
        = some (.SyncDevices "C1" "C1" pageAnswer.api) :=
  ⟨rfl, by decide,
    ((fetch_error_exhausted_or_abort demoMarshalEvent syncedState exhaustedAnswer [pageAnswer]
      (.new "dep: EXHAUSTED_CURSOR") rfl).1 (by decide)).2.2 pageAnswer [] rfl⟩

end depsync

